import Mathlib

/-
Verification of the Master control-plane repository: a shallow embedding of
the Process Supervisor (ProcessManager.cpp), the local-socket Message Channel
(LocalSocketIpcCommunication.cpp, IpcMessage.cpp), the Observable Store
(DataStore.cpp) and the Log Aggregator (LogAggregator.cpp), together with
theorems settling the specification claims about them.
-/

namespace Master

/-! ## JSON value model

Models Qt's `QJsonValue` / `QJsonObject` as used by `IpcMessage` and
`DataStore` snapshots.  A `QJsonObject` is modelled as an association list of
fields; field access is by key, so insertion order is irrelevant to every
operation modelled here. -/

inductive Json where
  | jstr (s : String)
  | jnum (n : Int)
  | jbool (b : Bool)
  | jarr (elems : List Json)
  | jobj (fields : List (String × Json))
  | jnull

/-- Field lookup in an association list of JSON object fields. -/
def lookupField : List (String × Json) → String → Option Json
  | [], _ => none
  | (k, v) :: rest, key => if k = key then some v else lookupField rest key

/-- `QJsonObject::operator[]`: looks a key up in an object; a missing key or a
non-object yields the undefined value, modelled as `none`. -/
def Json.getField : Json → String → Option Json
  | .jobj fields, key => lookupField fields key
  | _, _ => none

/-- `QJsonValue::toString` with Qt's default: non-strings give the empty
string. -/
def jToString : Option Json → String
  | some (.jstr s) => s
  | _ => ""

/-- `QJsonValue::toInt` (and `toVariant().toLongLong()` for the integral
values written by `IpcMessage::toJson`) with Qt's default 0. -/
def jToInt : Option Json → Int
  | some (.jnum n) => n
  | _ => 0

/-- `QJsonValue::toObject` with Qt's default: non-objects give the empty
object. -/
def jToObject : Option Json → List (String × Json)
  | some (.jobj fields) => fields
  | _ => []

/-! ## IpcMessage (IIpcCommunication.h, IpcMessage.cpp) -/

/-- The `MessageType` enum of IIpcCommunication.h. -/
inductive MessageType where
  | kHello
  | kHelloAck
  | kHeartbeat
  | kHeartbeatAck
  | kConfigUpdate
  | kCommand
  | kCommandResponse
  | kStatusReport
  | kLogMessage
  | kErrorReport
  | kShutdown
  deriving DecidableEq

/-- `static_cast<int>(type)` on the `MessageType` enum. -/
def MessageType.toInt : MessageType → Int
  | .kHello => 0
  | .kHelloAck => 1
  | .kHeartbeat => 2
  | .kHeartbeatAck => 3
  | .kConfigUpdate => 4
  | .kCommand => 5
  | .kCommandResponse => 6
  | .kStatusReport => 7
  | .kLogMessage => 8
  | .kErrorReport => 9
  | .kShutdown => 10

/-- `static_cast<MessageType>(n)` on an `int`.  Only the values 0..10 are ever
produced by `toJson`; the catch-all branch is an arbitrary total extension of
the C++ cast, whose behaviour outside the enum range is not relied upon. -/
def messageTypeFromInt (n : Int) : MessageType :=
  if n = 0 then .kHello
  else if n = 1 then .kHelloAck
  else if n = 2 then .kHeartbeat
  else if n = 3 then .kHeartbeatAck
  else if n = 4 then .kConfigUpdate
  else if n = 5 then .kCommand
  else if n = 6 then .kCommandResponse
  else if n = 7 then .kStatusReport
  else if n = 8 then .kLogMessage
  else if n = 9 then .kErrorReport
  else if n = 10 then .kShutdown
  else .kHello

/-- The `IpcMessage` struct of IIpcCommunication.h. -/
structure IpcMessage where
  type : MessageType
  topic : String
  msg_id : String
  timestamp : Int
  sender_id : String
  receiver_id : String
  body : List (String × Json)

/-- `IpcMessage::toJson` (IpcMessage.cpp lines 13-23). -/
def IpcMessage.toJson (m : IpcMessage) : Json :=
  .jobj [("type", .jnum m.type.toInt),
         ("topic", .jstr m.topic),
         ("msg_id", .jstr m.msg_id),
         ("timestamp", .jnum m.timestamp),
         ("sender_id", .jstr m.sender_id),
         ("receiver_id", .jstr m.receiver_id),
         ("body", .jobj m.body)]

/-- `IpcMessage::fromJson` (IpcMessage.cpp lines 25-35).  Note that the source
reads the message id from the key `"msg_ id"` (with a stray space), not from
`"msg_id"` as written by `toJson`. -/
def IpcMessage.fromJson (j : Json) : IpcMessage :=
  { type := messageTypeFromInt (jToInt (j.getField "type"))
  , topic := jToString (j.getField "topic")
  , msg_id := jToString (j.getField "msg_ id")
  , timestamp := jToInt (j.getField "timestamp")
  , sender_id := jToString (j.getField "sender_id")
  , receiver_id := jToString (j.getField "receiver_id")
  , body := jToObject (j.getField "body") }

/-- All fields of two messages agree except possibly `msg_id`; used to state
what the serialization round trip preserves. -/
def IpcMessage.agreesExceptMsgId (a b : IpcMessage) : Prop :=
  a.type = b.type ∧ a.topic = b.topic ∧ a.timestamp = b.timestamp ∧
  a.sender_id = b.sender_id ∧ a.receiver_id = b.receiver_id ∧ a.body = b.body

/-! ## Compact JSON serialization (QJsonDocument::toJson(Compact))

`IpcMessage::toByteArray` serializes `toJson()` with
`QJsonDocument::toJson(QJsonDocument::Compact)`: no whitespace, strings quoted
with control characters escaped.  Only the shape of the byte stream matters to
the framing claims; the printer below produces the compact form. -/

/-- Hexadecimal digit for a value below 16. -/
def hexDigit (n : Nat) : Char :=
  if n < 10 then Char.ofNat (48 + n) else Char.ofNat (87 + n)

/-- Escape one character of a JSON string literal: quotes and backslashes are
backslash-escaped, control characters use the two-character escapes or a
\u00XX escape, everything else is literal. -/
def escapeChar (c : Char) : String :=
  if c = '"' then "\\\""
  else if c = '\\' then "\\\\"
  else if c = '\n' then "\\n"
  else if c = '\r' then "\\r"
  else if c = '\t' then "\\t"
  else if c.toNat < 32 then
    String.mk ['\\', 'u', '0', '0', hexDigit (c.toNat / 16), hexDigit (c.toNat % 16)]
  else String.singleton c

/-- Escape a whole JSON string literal body. -/
def jsonEscape (s : String) : String :=
  String.join (s.toList.map escapeChar)

mutual

/-- Compact (whitespace-free) JSON printing of a value. -/
def Json.compact : Json → String
  | .jstr s => "\"" ++ jsonEscape s ++ "\""
  | .jnum n => toString n
  | .jbool b => if b then "true" else "false"
  | .jnull => "null"
  | .jarr elems => "[" ++ compactElems elems ++ "]"
  | .jobj fields => "\x7b" ++ compactFields fields ++ "\x7d"

/-- Compact printing of the comma-separated elements of a JSON array. -/
def compactElems : List Json → String
  | [] => ""
  | [x] => x.compact
  | x :: y :: rest => x.compact ++ "," ++ compactElems (y :: rest)

/-- Compact printing of the comma-separated fields of a JSON object. -/
def compactFields : List (String × Json) → String
  | [] => ""
  | [kv] => "\"" ++ jsonEscape kv.1 ++ "\":" ++ kv.2.compact
  | kv :: kv2 :: rest =>
      "\"" ++ jsonEscape kv.1 ++ "\":" ++ kv.2.compact ++ "," ++
        compactFields (kv2 :: rest)

end

/-! ## Wire framing (LocalSocketIpcCommunication.cpp)

Bytes are modelled as natural numbers; a string contributes the code points of
its characters (for the ASCII data of the framing protocol this coincides with
the UTF-8 bytes).  The newline delimiter is byte 10. -/

/-- The byte sequence of a string. -/
def strBytes (s : String) : List Nat :=
  s.toList.map Char.toNat

/-- `IpcMessage::toByteArray`: the bytes of the compact JSON serialization of
the message. -/
def serializeMessage (m : IpcMessage) : List Nat :=
  strBytes (Json.compact m.toJson)

/-- The block written by both `sendMessage` overloads (lines 141-145 and
172-176): `message.toByteArray()` with `'\n'` appended. -/
def sendFrame (m : IpcMessage) : List Nat :=
  serializeMessage m ++ [10]

/-- Big-endian 4-byte encoding of a 32-bit length, as written by
`QDataStream` for a `QByteArray`. -/
def u32be (n : Nat) : List Nat :=
  [n / 16777216 % 256, n / 65536 % 256, n / 256 % 256, n % 256]

/-- The block written per client by `broadcastMessage` (lines 196-199) and
`publishToTopic` (lines 230-233): `QDataStream out << message.toByteArray()`,
i.e. a 4-byte big-endian length prefix followed by the raw bytes — and no
newline delimiter. -/
def broadcastBlock (m : IpcMessage) : List Nat :=
  u32be (serializeMessage m).length ++ serializeMessage m

/-! ## Receive path (LocalSocketIpcCommunication::readyRead, lines 353-388)

`readyRead` appends the newly read bytes to the connection's private buffer
and then loops: while the buffer contains `'\n'`, the bytes before the first
newline form a complete frame, which is removed (delimiter included) from the
buffer; non-empty frames are deserialized and dispatched.  `processBuffer`
is that loop: it returns the list of complete frames in order and the
remaining partial frame. -/

/-- The loop predicate: a byte is not the newline delimiter. -/
def nlPred : Nat → Bool := fun b => b != 10

/-- The frame-extraction loop of `readyRead`: repeatedly split the buffer at
the first newline; the second component is the leftover partial frame. -/
def processBuffer (buf : List Nat) : List (List Nat) × List Nat :=
  if hmem : 10 ∈ buf then
    let frame := buf.takeWhile nlPred
    let rest := (buf.dropWhile nlPred).tail
    let result := processBuffer rest
    (frame :: result.1, result.2)
  else ([], buf)
termination_by buf.length
decreasing_by
  simp only [List.length_tail]
  have hne : buf.dropWhile nlPred ≠ [] := by
    intro h
    rw [List.dropWhile_eq_nil_iff] at h
    have := h 10 hmem
    simp [nlPred] at this
  have h1 : (buf.dropWhile nlPred).length ≤ buf.length :=
    (List.dropWhile_sublist nlPred).length_le
  have h2 : 0 < (buf.dropWhile nlPred).length := List.length_pos.mpr hne
  omega

/-- The frames dispatched by one `readyRead` pass over a buffer: the complete
frames, except that empty frames are skipped (`if (!message_data.isEmpty())`,
line 369). -/
def dispatchedFrames (buf : List Nat) : List (List Nat) :=
  (processBuffer buf).1.filter (fun f => f ≠ [])

/-- Reassemble a buffer from complete frames and a partial remainder: each
frame is followed by the newline delimiter. -/
def joinFrames (frames : List (List Nat)) (rest : List Nat) : List Nat :=
  frames.foldr (fun f acc => f ++ 10 :: acc) rest

theorem processBuffer_of_not_mem {buf : List Nat} (h : ¬ 10 ∈ buf) :
    processBuffer buf = ([], buf) := by
  rw [processBuffer]
  simp [h]

theorem dropWhile_ne_nil_of_mem {buf : List Nat} (hmem : 10 ∈ buf) :
    buf.dropWhile nlPred ≠ [] := by
  intro h
  rw [List.dropWhile_eq_nil_iff] at h
  have := h 10 hmem
  simp [nlPred] at this

theorem dropWhile_cons_of_mem {buf : List Nat} (hmem : 10 ∈ buf) :
    buf.dropWhile nlPred = 10 :: (buf.dropWhile nlPred).tail := by
  have hne := dropWhile_ne_nil_of_mem hmem
  have hhead := List.head_dropWhile_not nlPred buf hne
  have : (buf.dropWhile nlPred).head hne = 10 := by
    simp [nlPred] at hhead
    exact hhead
  rw [← this]
  exact (List.head_cons_tail _ hne).symm

theorem processBuffer_of_mem {buf : List Nat} (hmem : 10 ∈ buf) :
    processBuffer buf =
      ((buf.takeWhile nlPred) :: (processBuffer ((buf.dropWhile nlPred).tail)).1,
       (processBuffer ((buf.dropWhile nlPred).tail)).2) := by
  rw [processBuffer]
  simp [hmem]

/-- The extracted frames and the remainder reassemble to the original
buffer: no byte is lost or duplicated by the framing loop. -/
theorem processBuffer_join (buf : List Nat) :
    joinFrames (processBuffer buf).1 (processBuffer buf).2 = buf := by
  induction buf using processBuffer.induct with
  | case1 buf hmem rest ih =>
    rw [processBuffer_of_mem hmem]
    simp only [joinFrames, List.foldr_cons]
    have hrec : joinFrames (processBuffer ((buf.dropWhile nlPred).tail)).1
        (processBuffer ((buf.dropWhile nlPred).tail)).2 = (buf.dropWhile nlPred).tail := ih
    simp only [joinFrames] at hrec
    rw [hrec]
    conv_rhs => rw [← List.takeWhile_append_dropWhile nlPred buf]
    rw [dropWhile_cons_of_mem hmem]
    simp
  | case2 buf hmem =>
    rw [processBuffer_of_not_mem hmem]
    simp [joinFrames]

/-- The leftover partial frame contains no newline: everything up to the last
delimiter was consumed. -/
theorem processBuffer_rest_no_newline (buf : List Nat) :
    ¬ 10 ∈ (processBuffer buf).2 := by
  induction buf using processBuffer.induct with
  | case1 buf hmem rest ih =>
    rw [processBuffer_of_mem hmem]
    exact ih
  | case2 buf hmem =>
    rw [processBuffer_of_not_mem hmem]
    exact hmem

/-- No extracted frame contains the delimiter. -/
theorem processBuffer_frames_no_newline (buf : List Nat) :
    ∀ f ∈ (processBuffer buf).1, ¬ 10 ∈ f := by
  induction buf using processBuffer.induct with
  | case1 buf hmem rest ih =>
    rw [processBuffer_of_mem hmem]
    intro f hf
    rcases List.mem_cons.mp hf with h | h
    · subst h
      intro habs
      have := List.mem_takeWhile_imp habs
      simp [nlPred] at this
    · exact ih f h
  | case2 buf hmem =>
    rw [processBuffer_of_not_mem hmem]
    intro f hf
    simp at hf

theorem takeWhile_frame {f t : List Nat} (hf : ¬ 10 ∈ f) :
    (f ++ 10 :: t).takeWhile nlPred = f ∧ (f ++ 10 :: t).dropWhile nlPred = 10 :: t := by
  induction f with
  | nil => simp [List.takeWhile_cons, List.dropWhile_cons, nlPred]
  | cons a as ih =>
    have ha : a ≠ 10 := by
      intro h; exact hf (by simp [h])
    have has : ¬ 10 ∈ as := fun h => hf (by simp [h])
    have := ih has
    constructor
    · simp only [List.cons_append, List.takeWhile_cons]
      simp [nlPred, ha, this.1]
    · simp only [List.cons_append, List.dropWhile_cons]
      simp [nlPred, ha, this.2]

theorem processBuffer_joinFrames (F : List (List Nat)) (x : List Nat)
    (hF : ∀ f ∈ F, ¬ 10 ∈ f) :
    processBuffer (joinFrames F x) = (F ++ (processBuffer x).1, (processBuffer x).2) := by
  induction F with
  | nil => simp [joinFrames]
  | cons f fs ih =>
    have hf := hF f (by simp)
    have hfs : ∀ g ∈ fs, ¬ 10 ∈ g := fun g hg => hF g (by simp [hg])
    have hjoin : joinFrames (f :: fs) x = f ++ 10 :: joinFrames fs x := by
      simp [joinFrames]
    rw [hjoin]
    have hmem : 10 ∈ f ++ 10 :: joinFrames fs x := by simp
    rw [processBuffer_of_mem hmem]
    rw [(takeWhile_frame hf).1, (takeWhile_frame hf).2]
    simp only [List.tail_cons]
    rw [ih hfs]
    simp

/-- A partial frame left from one read is completed by later reads: running
the loop on `buf1 ++ buf2` dispatches the frames of `buf1` followed by the
frames obtained by prepending `buf1`'s leftover to `buf2`. -/
theorem processBuffer_incremental (buf1 buf2 : List Nat) :
    processBuffer (buf1 ++ buf2) =
      ((processBuffer buf1).1 ++ (processBuffer ((processBuffer buf1).2 ++ buf2)).1,
       (processBuffer ((processBuffer buf1).2 ++ buf2)).2) := by
  conv_lhs => rw [← processBuffer_join buf1]
  have hjoin : joinFrames (processBuffer buf1).1 (processBuffer buf1).2 ++ buf2 =
      joinFrames (processBuffer buf1).1 ((processBuffer buf1).2 ++ buf2) := by
    unfold joinFrames
    induction (processBuffer buf1).1 with
    | nil => rfl
    | cons f fs ih => simp [ih]
  rw [hjoin, processBuffer_joinFrames _ _ (processBuffer_frames_no_newline buf1)]

/-! ## Channel routing state (LocalSocketIpcCommunication.h/.cpp)

The server keeps `clients_` (internal connection id, assigned on accept, to
socket), `logical_to_internal_id_` / `internal_to_logical_id_`, and
`topic_subscriptions_` (topic to list of ids).  Maps are modelled as
association lists with unique keys; a socket is modelled by its connection
flag (`state() == ConnectedState`).  `readyRead` parses each complete frame
into an `IpcMessage` before handling it; the state transitions below consume
the parsed messages directly. -/

/-- `QMap`/`std::map` lookup. -/
def assocLookup {β : Type} : List (String × β) → String → Option β
  | [], _ => none
  | (k, v) :: rest, key => if k = key then some v else assocLookup rest key

/-- `QMap`/`std::map` insert-or-assign (`operator[] = value`). -/
def assocInsert {β : Type} : List (String × β) → String → β → List (String × β)
  | [], key, v => [(key, v)]
  | (k, w) :: rest, key, v =>
      if k = key then (key, v) :: rest else (k, w) :: assocInsert rest key v

/-- `QMap::remove` / `std::map::erase` of a key. -/
def assocErase {β : Type} : List (String × β) → String → List (String × β)
  | [], _ => []
  | (k, w) :: rest, key => if k = key then rest else (k, w) :: assocErase rest key

/-- `QList::removeOne`: remove the first occurrence of a value. -/
def removeOne : List String → String → List String
  | [], _ => []
  | x :: rest, y => if x = y then rest else x :: removeOne rest y

/-- The routing state of `LocalSocketIpcCommunication`. -/
structure ChannelState where
  clients : List (String × Bool)
  logicalToInternal : List (String × String)
  internalToLogical : List (String × String)
  topicSubs : List (String × List String)

/-- The state after construction: all maps empty. -/
def initialChannelState : ChannelState :=
  { clients := [], logicalToInternal := [], internalToLogical := [], topicSubs := [] }

/-- `newConnection` (lines 312-335): a fresh internal id is generated and the
socket stored in `clients_`. -/
def newConnection (st : ChannelState) (internalId : String) : ChannelState :=
  { st with clients := assocInsert st.clients internalId true }

/-- `establishIdMapping` (lines 390-402): on a message whose sender declares a
non-empty logical id, record `logical -> internal` and `internal -> logical`,
but only when the logical id is not yet mapped (first writer wins). -/
def establishIdMapping (st : ChannelState) (internalId : String) (m : IpcMessage) :
    ChannelState :=
  let internal_id := if (assocLookup st.clients internalId).isSome then internalId else ""
  if internal_id ≠ "" ∧ m.sender_id ≠ "" then
    if (assocLookup st.logicalToInternal m.sender_id).isNone then
      { st with
          logicalToInternal := assocInsert st.logicalToInternal m.sender_id internal_id,
          internalToLogical := assocInsert st.internalToLogical internal_id m.sender_id }
    else st
  else st

/-- `handleSubscriptionMessage` (lines 404-432): a `kCommand` message with
topic `"subscribe_topic"` appends the message's `sender_id` to the
subscription list of the topic named in the body (if not already present); an
`"unsubscribe_topic"` command removes its first occurrence.  Note that the
id stored in the subscription list is the *logical* sender id. -/
def handleSubscriptionMessage (st : ChannelState) (m : IpcMessage) : ChannelState :=
  if m.type = MessageType.kCommand ∧ m.topic = "subscribe_topic" then
    let topic_to_subscribe := jToString (lookupField m.body "topic")
    let client_id := m.sender_id
    if topic_to_subscribe ≠ "" ∧ client_id ≠ "" then
      let current := (assocLookup st.topicSubs topic_to_subscribe).getD []
      if client_id ∈ current then
        { st with topicSubs := assocInsert st.topicSubs topic_to_subscribe current }
      else
        { st with
            topicSubs := assocInsert st.topicSubs topic_to_subscribe (current ++ [client_id]) }
    else st
  else if m.type = MessageType.kCommand ∧ m.topic = "unsubscribe_topic" then
    let topic_to_unsubscribe := jToString (lookupField m.body "topic")
    let client_id := m.sender_id
    if topic_to_unsubscribe ≠ "" ∧ client_id ≠ "" then
      let current := (assocLookup st.topicSubs topic_to_unsubscribe).getD []
      { st with
          topicSubs := assocInsert st.topicSubs topic_to_unsubscribe (removeOne current client_id) }
    else st
  else st

/-- The per-message handling of `readyRead` (lines 372-385): establish the id
mapping, then handle subscription commands. -/
def handleMessage (st : ChannelState) (internalId : String) (m : IpcMessage) : ChannelState :=
  let st1 := establishIdMapping st internalId m
  if m.type = MessageType.kCommand ∧
      (m.topic = "subscribe_topic" ∨ m.topic = "unsubscribe_topic") then
    handleSubscriptionMessage st1 m
  else st1

/-- `RemoveClient` (lines 473-506): erase the connection, drop the id mapping
through `internal_to_logical_id_`, and remove the *internal* connection id
from every topic subscription list. -/
def RemoveClient (st : ChannelState) (internalId : String) : ChannelState :=
  if (assocLookup st.clients internalId).isSome then
    let st1 := { st with clients := assocErase st.clients internalId }
    let st2 :=
      match assocLookup st1.internalToLogical internalId with
      | some logical_id =>
          { st1 with
              internalToLogical := assocErase st1.internalToLogical internalId,
              logicalToInternal := assocErase st1.logicalToInternal logical_id }
      | none => st1
    { st2 with topicSubs := st2.topicSubs.map (fun ts => (ts.1, removeOne ts.2 internalId)) }
  else st

/-- The externally driven channel events: a connection is accepted, a parsed
message arrives on a connection, a connection disconnects
(`socketDisconnected`, lines 337-351, which delegates to `RemoveClient`). -/
inductive ChanEvent where
  | accept (internalId : String)
  | recv (internalId : String) (m : IpcMessage)
  | disconnect (internalId : String)

/-- One channel step. -/
def chanStep (st : ChannelState) : ChanEvent → ChannelState
  | .accept i => newConnection st i
  | .recv i m => handleMessage st i m
  | .disconnect i => RemoveClient st i

/-- A run of the channel from a state through a list of events. -/
def chanRun (st : ChannelState) (evts : List ChanEvent) : ChannelState :=
  evts.foldl chanStep st

/-! ## Send operations (LocalSocketIpcCommunication.cpp)

Socket writes can fail; the environment is modelled by a predicate `writeOk`
telling for each internal connection id whether the full block is written. -/

/-- `sendMessage(message)` (lines 115-154): resolve the logical receiver id
through `logical_to_internal_id_`, require the connection to exist and be in
`ConnectedState`, then write `toByteArray()` plus `'\n'`.  Returns the
success flag and the attempted write (internal id and block). -/
def sendMessage (st : ChannelState) (m : IpcMessage) (writeOk : String → Bool) :
    Bool × Option (String × List Nat) :=
  match assocLookup st.logicalToInternal m.receiver_id with
  | none => (false, none)
  | some internal_receiver_id =>
    match assocLookup st.clients internal_receiver_id with
    | none => (false, none)
    | some connected =>
      if connected then
        (writeOk internal_receiver_id, some (internal_receiver_id, sendFrame m))
      else (false, none)

/-- `broadcastMessage` (lines 189-218): succeed immediately with no clients;
otherwise iterate over all clients, write the `QDataStream` block to each
connected one, and clear the overall flag on any failed write. -/
def broadcastMessage (st : ChannelState) (writeOk : String → Bool) : Bool :=
  if st.clients.isEmpty then true
  else
    st.clients.foldl
      (fun all_success client =>
        if client.2 then (if writeOk client.1 then all_success else false)
        else all_success)
      true

/-- The writes attempted by `broadcastMessage`: one `broadcastBlock` per
connected client. -/
def broadcastWrites (st : ChannelState) (m : IpcMessage) : List (String × List Nat) :=
  if st.clients.isEmpty then []
  else
    st.clients.filterMap
      (fun client => if client.2 then some (client.1, broadcastBlock m) else none)

/-! ## Observable Store (DataStore.cpp)

`data_` is a `QHash<QString, QVariant>` modelled as an association list with
unique keys.  The repository stores strings, numbers, booleans and
`QStringList`s in it, but also `QVariant` values that JSON cannot represent
natively: `QDateTime` (MainController.cpp lines 247, 885, 917, 1276, 1297),
`QJsonObject` (lines 981, 1042, 1601) and arbitrary `toVariant()` results
(line 1267).  `DSValue` covers the native kinds and includes `QDateTime` —
represented by the ISO-8601 string `QJsonValue::fromVariant` renders it to —
as the embedded representative of that second group, which is what the
snapshot round trip degrades.  An absent key reads as the invalid
`QVariant`, which compares equal to no stored value, so `data_.value(key)`
is modelled as an `Option DSValue`. -/

/-- The tagged value domain of the store. -/
inductive DSValue where
  | vstr (s : String)
  | vnum (n : Int)
  | vbool (b : Bool)
  | vlist (l : List String)
  | vdatetime (iso : String)
  deriving DecidableEq

/-- The store contents (`data_`). -/
abbrev Store := List (String × DSValue)

/-- `data_.value(key)` without a default: `none` models the invalid
`QVariant`. -/
def storeLookup : Store → String → Option DSValue
  | [], _ => none
  | (k, v) :: rest, key => if k = key then some v else storeLookup rest key

/-- `data_[key] = value`: insert or overwrite. -/
def storeInsert : Store → String → DSValue → Store
  | [], key, v => [(key, v)]
  | (k, w) :: rest, key, v =>
      if k = key then (key, v) :: rest else (k, w) :: storeInsert rest key v

/-- `DataStore::setValue` (lines 79-107): an empty key is rejected; a value
equal to the stored one is a no-op; otherwise the map is updated and the
change is notified.  The boolean result records whether `valueChanged` was
emitted and the subscribers notified (the source notifies subscribers only
when its `notifySubscribers` argument is set; the flag returned here is for
a call with that argument `true`). -/
def setValue (st : Store) (key : String) (v : DSValue) : Store × Bool :=
  if key = "" then (st, false)
  else if storeLookup st key = some v then (st, false)
  else (storeInsert st key v, true)

/-- `DataStore::setValue` with `notifySubscribers = false` (used by
`restoreFromSnapshot`): same map update, subscribers not notified. -/
def setValueSilent (st : Store) (key : String) (v : DSValue) : Store :=
  (setValue st key v).1

/-- `DataStore::getValue` (lines 109-113): `data_.value(key, defaultValue)`. -/
def getValue (st : Store) (key : String) (defaultValue : DSValue) : DSValue :=
  (storeLookup st key).getD defaultValue

/-! ### Pattern matching (DataStore::matchesPattern, lines 515-533)

The source compiles a pattern containing `*` to the anchored regular
expression `"^" + escape(pattern~('*' -> ".*")) + "$"` and runs it through
`QRegularExpression` with default options.  Under those options `.` matches
any character *except* the newline `'\n'`, so each `*` stands for a run of
non-newline characters; and `$` (no DollarEndOnly) matches at the end of the
key or immediately before one trailing `'\n'`.  Every escaped character,
including an escaped newline, matches only itself.  `globMatch` is the
body of that regular expression over character lists and `reAccepts` adds
the trailing-newline tolerance of the `$` anchor. -/

/-- The anchored body `escape(pre) .* escape(suf) ...` of the compiled
pattern: `*` (alias `.*`) matches any run of non-newline characters, every
other pattern character matches only itself. -/
def globMatch : List Char → List Char → Bool
  | [], cs => cs.isEmpty
  | p :: ps, cs =>
    if p = '*' then
      globMatch ps cs ||
        (match cs with
         | [] => false
         | c :: cs' => c != '\n' && globMatch (p :: ps) cs')
    else
      match cs with
      | [] => false
      | c :: cs' => p = c && globMatch ps cs'
termination_by ps cs => (ps.length, cs.length)

/-- Acceptance of the full anchored regular expression `^ body $`: the body
must consume the whole key, or the whole key short of one final newline
(the default PCRE behaviour of `$`). -/
def reAccepts (ps cs : List Char) : Bool :=
  globMatch ps cs || (decide (cs.getLast? = some '\n') && globMatch ps cs.dropLast)

/-- `QString::contains(QChar)`. -/
def qcontains (s : String) (c : Char) : Bool :=
  s.toList.contains c

/-- `DataStore::matchesPattern`: `"*"` matches everything; a pattern without
`*` requires exact equality; otherwise the compiled anchored regular
expression decides. -/
def matchesPattern (pattern key : String) : Bool :=
  if pattern = "*" then true
  else if ¬ qcontains pattern '*' then pattern == key
  else reAccepts pattern.toList key.toList

/-- `DataStore::notifySubscribers` (lines 478-513): collect the subscribers
of every pattern entry whose pattern matches the changed key (callbacks are
then invoked outside the lock).  `subs` is the `subscribers_` map: pattern to
list of subscriber identities. -/
def notifySubscribersOf (subs : List (String × List String)) (key : String) :
    List String :=
  (subs.filter (fun entry => matchesPattern entry.1 key)).foldr
    (fun entry acc => entry.2 ++ acc) []

/-! ### Snapshot and restore (DataStore.cpp lines 358-422) -/

/-- The per-entry encoding of `createSnapshot`: a `QStringList` value becomes
a JSON array of its strings; other values go through
`QJsonValue::fromVariant`, which renders a `QDateTime` as its ISO-8601
string. -/
def encodeValue : DSValue → Json
  | .vlist l => .jarr (l.map Json.jstr)
  | .vstr s => .jstr s
  | .vnum n => .jnum n
  | .vbool b => .jbool b
  | .vdatetime iso => .jstr iso

/-- The value kinds on which the snapshot encoding is invertible: the four
JSON-native tags.  A `QDateTime` is outside: its encoding is a JSON string,
which `restoreFromSnapshot` turns back into a plain `QString` variant of a
different type (and a stored `QJsonObject` or generic `QVariantList`
degrades analogously). -/
def snapshotExact : DSValue → Bool
  | .vdatetime _ => false
  | _ => true

/-- `DataStore::createSnapshot`: a JSON object with `timestamp`, `version`
and a `data` object holding every entry encoded. -/
def createSnapshot (ts : String) (st : Store) : Json :=
  .jobj [("timestamp", .jstr ts),
         ("version", .jstr "1.0"),
         ("data", .jobj (st.map (fun kv => (kv.1, encodeValue kv.2))))]

/-- `QJsonValue::toString` on an array element (restore builds a
`QStringList` from `item.toString()`). -/
def jsonItemToString : Json → String
  | .jstr s => s
  | _ => ""

/-- The per-entry decoding of `restoreFromSnapshot`: an array becomes a
`QStringList`; other values go through `QJsonValue::toVariant`.  Objects and
null decode to variants outside the modelled value domain (`none`); they are
never produced by `createSnapshot` on a `Store`. -/
def decodeSnapshotValue : Json → Option DSValue
  | .jarr items => some (.vlist (items.map jsonItemToString))
  | .jstr s => some (.vstr s)
  | .jnum n => some (.vnum n)
  | .jbool b => some (.vbool b)
  | .jobj _ => none
  | .jnull => none

/-- The restore loop: decode each entry of the snapshot's `data` object and
`setValue(key, value, false)` it into the (cleared) store. -/
def restoreData (kvs : List (String × Json)) (acc : Store) : Store :=
  kvs.foldl
    (fun acc kv =>
      match decodeSnapshotValue kv.2 with
      | some v => setValueSilent acc kv.1 v
      | none => acc)
    acc

/-- `DataStore::restoreFromSnapshot`: reject a snapshot without a `data`
object; otherwise clear the store and re-set every entry. -/
def restoreFromSnapshot (snapshot : Json) (st : Store) : Store × Bool :=
  match snapshot.getField "data" with
  | some (.jobj kvs) => (restoreData kvs [], true)
  | _ => (st, false)

/-! ## Process Supervisor (ProcessManager.cpp)

`process_info_map_` is a `QHash<QString, ProcessInfo>` modelled as an
association list with unique keys.  The OS process is modelled by its
existence (`has_process`); spawns in the traces considered succeed
(`waitForStarted` returns true), and `spawn_count` instruments the number of
`QProcess::start` calls that succeeded, so that "does not spawn again" is
directly observable.  The guard on `sender_id_to_process_id_`
(ProcessManager.cpp line 135) is vacuous: that map is never written anywhere
in the repository, so it is omitted. -/

/-- The `ProcessStatus` enum of ProcessManager.h. -/
inductive ProcessStatus where
  | kNotRunning
  | kStarting
  | kRunning
  | kStopping
  | kError
  | kCrashed
  deriving DecidableEq

/-- The `ProcessInfo` struct of ProcessManager.h (timing fields and the pid,
which no claim touches, are omitted). -/
structure ProcessInfo where
  process_id : String
  executable_path : String
  arguments : List String
  working_directory : String
  status : ProcessStatus
  restart_count : Nat
  auto_restart : Bool
  max_restart_count : Nat
  has_process : Bool
  deriving DecidableEq

/-- The supervisor state: the process map plus the spawn instrumentation. -/
structure PMState where
  process_info_map : List (String × ProcessInfo)
  spawn_count : Nat
  deriving DecidableEq

/-- The supervisor state after construction. -/
def pmInit : PMState :=
  { process_info_map := [], spawn_count := 0 }

/-- Association-list lookup for the process map. -/
def pmLookup (st : PMState) (id : String) : Option ProcessInfo :=
  assocLookup st.process_info_map id

/-- `ProcessManager::UpdateProcessStatus` (lines 731-745): update the status
of a registered process (the status-changed event fires only when the status
actually changes; events are not tracked here). -/
def UpdateProcessStatus (st : PMState) (id : String) (new_status : ProcessStatus) : PMState :=
  match pmLookup st id with
  | some info =>
      { st with process_info_map :=
          assocInsert st.process_info_map id { info with status := new_status } }
  | none => st

/-- `ProcessManager::AddProcess` (lines 88-115): register metadata only;
fails if the id exists.  The fresh record has status `kNotRunning`,
`restart_count = 0` and `max_restart_count = 5`. -/
def AddProcess (st : PMState) (id exe : String) (args : List String)
    (wd : String) (auto : Bool) : PMState × Bool :=
  if (pmLookup st id).isSome then (st, false)
  else
    (⟨assocInsert st.process_info_map id
        { process_id := id, executable_path := exe, arguments := args,
          working_directory := wd, status := .kNotRunning, restart_count := 0,
          auto_restart := auto, max_restart_count := 5, has_process := false },
      st.spawn_count⟩, true)

/-- `ProcessManager::SetMaxRestartCount` (lines 403-412). -/
def SetMaxRestartCount (st : PMState) (id : String) (n : Nat) : PMState :=
  match pmLookup st id with
  | some info =>
      { st with process_info_map :=
          assocInsert st.process_info_map id { info with max_restart_count := n } }
  | none => st

/-- `ProcessManager::StartProcess` (lines 117-179): reject only when the
registered record is `kRunning` or `kStarting`; otherwise build a *fresh*
`ProcessInfo` — status `kStarting`, `restart_count = 0`,
`max_restart_count = 3` — spawn, and store it, replacing any previous
record for the id.  The spawn is modelled as succeeding. -/
def StartProcess (st : PMState) (id exe : String) (args : List String)
    (wd : String) (auto : Bool) : PMState × Bool :=
  match pmLookup st id with
  | some info =>
      if info.status = .kRunning ∨ info.status = .kStarting then (st, false)
      else
        (⟨assocInsert st.process_info_map id
            { process_id := id, executable_path := exe, arguments := args,
              working_directory := wd, status := .kStarting, restart_count := 0,
              auto_restart := auto, max_restart_count := 3, has_process := true },
          st.spawn_count + 1⟩, true)
  | none =>
      (⟨assocInsert st.process_info_map id
          { process_id := id, executable_path := exe, arguments := args,
            working_directory := wd, status := .kStarting, restart_count := 0,
            auto_restart := auto, max_restart_count := 3, has_process := true },
        st.spawn_count + 1⟩, true)

/-- `ProcessManager::RestartProcess` (lines 237-276): fail if unregistered;
disable auto-restart and terminate the old process if one is attached and
the record is not `kNotRunning`; re-invoke `StartProcess` with the stored
executable, arguments and working directory and auto-restart re-enabled; on
success increment `restart_count` of the (freshly replaced) record. -/
def RestartProcess (st : PMState) (id : String) : PMState × Bool :=
  match pmLookup st id with
  | none => (st, false)
  | some info =>
    let st1 :=
      if info.has_process ∧ info.status ≠ .kNotRunning then
        { st with process_info_map :=
            assocInsert st.process_info_map id { info with auto_restart := false } }
      else st
    let started := StartProcess st1 id info.executable_path info.arguments
        info.working_directory true
    let st2 := started.1
    if started.2 then
      match pmLookup st2 id with
      | some info2 =>
          let info3 := { info2 with restart_count := info2.restart_count + 1 }
          ({ st2 with process_info_map := assocInsert st2.process_info_map id info3 }, true)
      | none => (st2, true)
    else (st2, false)

/-- `ProcessManager::ExecuteAutoRestart` (lines 693-729): fail if the process
is unregistered or `restart_count` has reached `max_restart_count`;
otherwise delegate to `RestartProcess`. -/
def ExecuteAutoRestart (st : PMState) (id : String) : PMState × Bool :=
  match pmLookup st id with
  | none => (st, false)
  | some info =>
    if info.restart_count ≥ info.max_restart_count then (st, false)
    else RestartProcess st id

/-- `ProcessManager::HandleProcessStarted` (lines 433-449): the OS confirms
the start; status becomes `kRunning`. -/
def HandleProcessStarted (st : PMState) (id : String) : PMState :=
  UpdateProcessStatus st id .kRunning

/-- `ProcessManager::HandleProcessFinished` (lines 451-490): on a crash exit
the status becomes `kCrashed` and, if `auto_restart` is set and
`restart_count < max_restart_count`, `ExecuteAutoRestart` runs; a normal
exit sets `kNotRunning`. -/
def HandleProcessFinished (st : PMState) (id : String) (crashed : Bool) : PMState :=
  match pmLookup st id with
  | none => st
  | some _ =>
    if crashed then
      let st1 := UpdateProcessStatus st id .kCrashed
      match pmLookup st1 id with
      | some info =>
          if info.auto_restart ∧ info.restart_count < info.max_restart_count then
            (ExecuteAutoRestart st1 id).1
          else st1
      | none => st1
    else UpdateProcessStatus st id .kNotRunning

/-- `ProcessManager::GetProcessStatus` (lines 278-288): an unregistered id
reads as `kNotRunning`. -/
def GetProcessStatus (st : PMState) (id : String) : ProcessStatus :=
  match pmLookup st id with
  | none => .kNotRunning
  | some info => info.status

/-- The supervisor events driving a trace. -/
inductive PMEvent where
  | addProcess (id exe : String) (args : List String) (wd : String) (auto : Bool)
  | setMaxRestartCount (id : String) (n : Nat)
  | startProcess (id exe : String) (args : List String) (wd : String) (auto : Bool)
  | processStarted (id : String)
  | processFinished (id : String) (crashed : Bool)

/-- One supervisor step. -/
def pmStep (st : PMState) : PMEvent → PMState
  | .addProcess id exe args wd auto => (AddProcess st id exe args wd auto).1
  | .setMaxRestartCount id n => SetMaxRestartCount st id n
  | .startProcess id exe args wd auto => (StartProcess st id exe args wd auto).1
  | .processStarted id => HandleProcessStarted st id
  | .processFinished id crashed => HandleProcessFinished st id crashed

/-- A supervisor run. -/
def pmRun (st : PMState) (evts : List PMEvent) : PMState :=
  evts.foldl pmStep st

/-! ## Log Aggregator (LogAggregator.cpp) -/

/-- The `LogEntry` struct of ILogStorage.h (`level` and `category` are the
enum ordinals; `QDateTime` timestamps are their millisecond values, whose
order is the `QDateTime` order). -/
structure LogEntry where
  log_id : String
  timestamp : Int
  level : Nat
  category : Nat
  source_process : String
  module_name : String
  function_name : String
  line_number : Int
  message : String
  thread_id : String
  session_id : String

/-- The comparison `a.timestamp < b.timestamp` used by `queryAllLogs` sorts
into non-decreasing timestamp order; `logEntryLE` is that order. -/
def logEntryLE (a b : LogEntry) : Prop :=
  a.timestamp ≤ b.timestamp

instance : DecidableRel logEntryLE := fun a b =>
  inferInstanceAs (Decidable (a.timestamp ≤ b.timestamp))

instance : IsTotal LogEntry logEntryLE :=
  ⟨fun a b => Int.le_total a.timestamp b.timestamp⟩

instance : IsTrans LogEntry logEntryLE :=
  ⟨fun _ _ _ hab hbc => Int.le_trans hab hbc⟩

/-- `LogAggregator::queryAllLogs` (lines 200-216): append every registered
backend's `queryLogs(condition)` result, then sort by timestamp.  The
backends are opaque behind `ILogStorage`; `backendResults` is the list of
their per-backend results for the given condition, in registration order.
`std::sort` produces some non-decreasing reordering; it is modelled by
insertion sort, which produces one. -/
def queryAllLogs (backendResults : List (List LogEntry)) : List LogEntry :=
  List.insertionSort logEntryLE backendResults.flatten

/-! # Theorems on the claims -/

/-! ## C2: serialization round trip -/

/-- A message with a UUID-format `msg_id`, the failing input for claim C2. -/
def c2Message : IpcMessage :=
  { type := .kHeartbeat
  , topic := "status"
  , msg_id := "550e8400-e29b-41d4-a716-446655440000"
  , timestamp := 1700000000000
  , sender_id := "workerA"
  , receiver_id := "master"
  , body := [("cpu", .jnum 42)] }

/-- Claim C2: deserializing the serialization of a message yields a message
equal field for field, including `msg_id`.  Refuted on the code:
`IpcMessage::fromJson` reads the message id from the misspelled key
`"msg_ id"` (stray space) while `toJson` writes `"msg_id"`, so the round
trip erases `msg_id` (it comes back empty) even though every other field is
preserved. -/
theorem C2_roundtrip_drops_msg_id :
    (IpcMessage.fromJson c2Message.toJson).msg_id = "" ∧
    c2Message.msg_id = "550e8400-e29b-41d4-a716-446655440000" ∧
    IpcMessage.fromJson c2Message.toJson ≠ c2Message ∧
    IpcMessage.agreesExceptMsgId (IpcMessage.fromJson c2Message.toJson) c2Message := by
  refine ⟨rfl, rfl, ?_, rfl, rfl, rfl, rfl, rfl, rfl⟩
  intro h
  have h2 := congrArg IpcMessage.msg_id h
  exact absurd h2 (by decide)

/-! ## C10: status of an unknown process id -/

/-- Claim C10: `GetProcessStatus` on an unregistered id returns `kNotRunning`
rather than failing, which is the same answer it gives for any registered
process whose status is `kNotRunning`. -/
theorem C10_unknown_id_reads_not_running (st : PMState) (id : String)
    (h : pmLookup st id = none) :
    GetProcessStatus st id = .kNotRunning ∧
    (∀ st' id' info, pmLookup st' id' = some info → info.status = .kNotRunning →
      GetProcessStatus st' id' = GetProcessStatus st id) := by
  constructor
  · unfold GetProcessStatus
    rw [h]
  · intro st' id' info h' hs
    unfold GetProcessStatus
    rw [h', h]
    exact hs

/-- Witness: the empty supervisor state and an unknown id. -/
theorem C10_witness :
    pmLookup pmInit "ghost" = none ∧ GetProcessStatus pmInit "ghost" = .kNotRunning :=
  ⟨rfl, (C10_unknown_id_reads_not_running pmInit "ghost" rfl).1⟩

/-! ## C1: bounded auto-restart -/

/-- The trace of claim C1: register a process with auto-restart, set
`max_restart_count = 2`, start it, and let it crash three times, each spawn
confirmed by the OS. -/
def c1Trace : List PMEvent :=
  [ .addProcess "workerA" "/usr/bin/worker" [] "/tmp" true
  , .setMaxRestartCount "workerA" 2
  , .startProcess "workerA" "/usr/bin/worker" [] "/tmp" true
  , .processStarted "workerA"
  , .processFinished "workerA" true
  , .processStarted "workerA"
  , .processFinished "workerA" true
  , .processStarted "workerA"
  , .processFinished "workerA" true ]

/-- The supervisor state after the C1 trace. -/
def c1Final : PMState := pmRun pmInit c1Trace

/-- Claim C1: with `max_restart_count = 2` the third crash leaves the process
`Crashed` with `restart_count = 2` and no further spawn.  Refuted on the
code: `StartProcess` installs a *fresh* record with `restart_count = 0` and
`max_restart_count = 3` on every (re)start, so each auto-restart leaves
`restart_count = 1`; the bound is never reached and every one of the three
crashes triggers a new spawn (4 spawns in total), leaving the process
starting again rather than permanently `Crashed`. -/
theorem C1_restart_bound_not_enforced :
    GetProcessStatus c1Final "workerA" = .kStarting ∧
    (pmLookup c1Final "workerA").map ProcessInfo.restart_count = some 1 ∧
    (pmLookup c1Final "workerA").map ProcessInfo.max_restart_count = some 3 ∧
    (pmLookup c1Final "workerA").map ProcessInfo.auto_restart = some true ∧
    c1Final.spawn_count = 4 :=
  ⟨rfl, rfl, rfl, rfl, rfl⟩

/-! ## C9: broadcast success -/

theorem broadcast_foldl (w : String → Bool) (l : List (String × Bool)) (acc : Bool) :
    l.foldl
      (fun all_success client =>
        if client.2 then (if w client.1 then all_success else false)
        else all_success) acc
      = (acc && l.all (fun client => !client.2 || w client.1)) := by
  induction l generalizing acc with
  | nil => simp
  | cons c cs ih =>
    simp only [List.foldl_cons, List.all_cons]
    rw [ih]
    cases hc : c.2 <;> cases hw : w c.1 <;> simp [hc, hw]

/-- Claim C9: `broadcastMessage` writes the block to every live (connected)
connection and returns success exactly when every one of those writes
succeeded; with zero clients it is a successful no-op. -/
theorem C9_broadcast_success_iff (st : ChannelState) (m : IpcMessage)
    (w : String → Bool) :
    (broadcastMessage st w = true ↔
      ∀ client ∈ st.clients, client.2 = true → w client.1 = true) ∧
    (st.clients = [] → broadcastMessage st w = true) ∧
    (∀ client ∈ st.clients, client.2 = true →
      (client.1, broadcastBlock m) ∈ broadcastWrites st m) := by
  refine ⟨?_, ?_, ?_⟩
  · unfold broadcastMessage
    by_cases hempty : st.clients.isEmpty
    · rw [List.isEmpty_iff] at hempty
      simp [hempty]
    · rw [if_neg hempty, broadcast_foldl, Bool.true_and, List.all_eq_true]
      constructor
      · intro hall client hmem hconn
        have := hall client hmem
        rw [hconn] at this
        simpa using this
      · intro hall client hmem
        cases hc : client.2 with
        | false => simp [hc]
        | true => simp [hc, hall client hmem hc]
  · intro hempty
    unfold broadcastMessage
    rw [hempty]
    rfl
  · intro client hmem hconn
    have hne : st.clients ≠ [] := List.ne_nil_of_mem hmem
    unfold broadcastWrites
    rw [if_neg (by simpa [List.isEmpty_iff] using hne), List.mem_filterMap]
    refine ⟨client, hmem, ?_⟩
    rw [hconn]
    simp

/-- A two-client state for the C9 witness: one connected client and one whose
socket already left `ConnectedState`. -/
def c9State : ChannelState :=
  { clients := [("conn-1", true), ("conn-2", false)]
  , logicalToInternal := [], internalToLogical := [], topicSubs := [] }

/-- A message for the C9 witness. -/
def c9Message : IpcMessage :=
  { type := .kConfigUpdate, topic := "", msg_id := "m-9", timestamp := 3
  , sender_id := "master", receiver_id := "", body := [] }

/-- Witness for C9 at a concrete state: with all writes succeeding the
broadcast succeeds. -/
theorem C9_witness : broadcastMessage c9State (fun _ => true) = true :=
  (C9_broadcast_success_iff c9State c9Message (fun _ => true)).1.mpr
    (fun _ _ _ => rfl)

/-! ## C7: cross-backend query merge -/

/-- A log entry for the C7 example, earliest timestamp. -/
def c7e1 : LogEntry :=
  { log_id := "log-1", timestamp := 1000, level := 2, category := 0
  , source_process := "workerA", module_name := "mod", function_name := "fn"
  , line_number := 1, message := "first", thread_id := "t1", session_id := "s1" }

/-- A log entry for the C7 example, latest timestamp. -/
def c7e2 : LogEntry :=
  { log_id := "log-2", timestamp := 2000, level := 2, category := 0
  , source_process := "workerB", module_name := "mod", function_name := "fn"
  , line_number := 2, message := "second", thread_id := "t1", session_id := "s1" }

/-- Claim C7: `queryAllLogs` returns exactly the union (concatenation) of the
per-backend results, ordered non-decreasing by timestamp; in particular two
backends holding entries at different timestamps come back merged in
timestamp order. -/
theorem C7_queryAllLogs_sorted_union :
    (∀ backendResults : List (List LogEntry),
        (queryAllLogs backendResults).Perm backendResults.flatten ∧
        List.Sorted logEntryLE (queryAllLogs backendResults)) ∧
    queryAllLogs [[c7e2], [c7e1]] = [c7e1, c7e2] := by
  refine ⟨fun backendResults => ⟨?_, ?_⟩, ?_⟩
  · exact List.perm_insertionSort logEntryLE backendResults.flatten
  · exact List.sorted_insertionSort logEntryLE backendResults.flatten
  · rfl

/-! ## C4: set/get and identical-set no-op -/

theorem storeLookup_insert_self (st : Store) (k : String) (v : DSValue) :
    storeLookup (storeInsert st k v) k = some v := by
  induction st with
  | nil => simp [storeInsert, storeLookup]
  | cons kv rest ih =>
    by_cases hk : kv.1 = k
    · simp [storeInsert, hk, storeLookup]
    · simp [storeInsert, hk, storeLookup, ih]

theorem storeLookup_insert_other (st : Store) {k' k : String} (v : DSValue)
    (h : k' ≠ k) :
    storeLookup (storeInsert st k' v) k = storeLookup st k := by
  induction st with
  | nil => simp [storeInsert, storeLookup, h]
  | cons kv rest ih =>
    by_cases hk : kv.1 = k'
    · simp [storeInsert, hk, storeLookup, h]
    · simp [storeInsert, hk, storeLookup, ih]

/-- Claim C4: for a non-empty key, `set` then `get` returns the value just
set; a second `set` with the identical value is a no-op that changes nothing
and fires no notification, so the notification fires exactly once — on the
first `set` (whenever the key did not already hold that value). -/
theorem C4_set_get_notify_once (st : Store) (k : String) (v d : DSValue)
    (hk : k ≠ "") :
    getValue (setValue st k v).1 k d = v ∧
    setValue (setValue st k v).1 k v = ((setValue st k v).1, false) ∧
    (storeLookup st k ≠ some v → (setValue st k v).2 = true) := by
  by_cases hv : storeLookup st k = some v
  · refine ⟨?_, ?_, ?_⟩
    · simp [setValue, hk, hv, getValue]
    · simp [setValue, hk, hv]
    · intro hne
      exact absurd hv hne
  · have hstore : (setValue st k v).1 = storeInsert st k v := by
      simp [setValue, hk, hv]
    refine ⟨?_, ?_, ?_⟩
    · rw [hstore]
      simp [getValue, storeLookup_insert_self]
    · rw [hstore]
      simp [setValue, hk, storeLookup_insert_self]
    · simp [setValue, hk, hv]

/-- Witness for C4 at a concrete store, key and value. -/
theorem C4_witness :
    getValue (setValue [] "proc.workerA.status" (.vstr "running")).1
        "proc.workerA.status" (.vstr "") = .vstr "running" ∧
    setValue (setValue [] "proc.workerA.status" (.vstr "running")).1
        "proc.workerA.status" (.vstr "running")
      = ((setValue [] "proc.workerA.status" (.vstr "running")).1, false) ∧
    (setValue [] "proc.workerA.status" (.vstr "running")).2 = true := by
  have h := C4_set_get_notify_once [] "proc.workerA.status" (.vstr "running")
    (.vstr "") (by decide)
  exact ⟨h.1, h.2.1, h.2.2 (by decide)⟩

/-! ## C8: snapshot/restore round trip -/

/-- Decoding inverts encoding on the JSON-native value kinds; in particular
a string-list value comes back as a string list, not as a scalar string. -/
theorem decode_encode (v : DSValue) (hv : snapshotExact v = true) :
    decodeSnapshotValue (encodeValue v) = some v := by
  cases v with
  | vstr s => rfl
  | vnum n => rfl
  | vbool b => rfl
  | vlist l =>
    simp only [encodeValue, decodeSnapshotValue, List.map_map, Option.some.injEq,
      DSValue.vlist.injEq]
    have : (jsonItemToString ∘ Json.jstr) = id := by
      funext s
      rfl
    rw [this, List.map_id]
  | vdatetime iso => simp [snapshotExact] at hv

/-- On a `QDateTime` value the round trip is lossy: the restore yields the
ISO string as a plain string variant, a value of a different type. -/
theorem decode_encode_datetime (iso : String) :
    decodeSnapshotValue (encodeValue (.vdatetime iso)) = some (.vstr iso) := rfl

theorem setValueSilent_lookup_self (acc : Store) {k : String} (v : DSValue)
    (hk : k ≠ "") :
    storeLookup (setValueSilent acc k v) k = some v := by
  by_cases hv : storeLookup acc k = some v
  · simp [setValueSilent, setValue, hk, hv]
  · simp [setValueSilent, setValue, hk, hv, storeLookup_insert_self]

theorem setValueSilent_lookup_other (acc : Store) {k' k : String} (v : DSValue)
    (h : k' ≠ k) :
    storeLookup (setValueSilent acc k' v) k = storeLookup acc k := by
  by_cases hk' : k' = ""
  · simp [setValueSilent, setValue, hk']
  · by_cases hv : storeLookup acc k' = some v
    · simp [setValueSilent, setValue, hk', hv]
    · simp [setValueSilent, setValue, hk', hv, storeLookup_insert_other _ _ h]

theorem restoreData_lookup_frame (kvs : List (String × Json)) (acc : Store)
    {k : String} (h : ¬ k ∈ kvs.map Prod.fst) :
    storeLookup (restoreData kvs acc) k = storeLookup acc k := by
  induction kvs generalizing acc with
  | nil => rfl
  | cons kv rest ih =>
    have hk : kv.1 ≠ k := by
      intro he
      exact h (by simp [he])
    have hrest : ¬ k ∈ rest.map Prod.fst := by
      intro hm
      exact h (by simp [hm])
    cases hd : decodeSnapshotValue kv.2 with
    | none =>
      have hstep : restoreData (kv :: rest) acc = restoreData rest acc := by
        simp [restoreData, hd]
      rw [hstep]
      exact ih acc hrest
    | some v =>
      have hstep : restoreData (kv :: rest) acc
          = restoreData rest (setValueSilent acc kv.1 v) := by
        simp [restoreData, hd]
      rw [hstep, ih _ hrest]
      exact setValueSilent_lookup_other acc v hk

theorem restoreData_encoded_lookup (st : Store) (acc : Store)
    (hkeys : ∀ kv ∈ st, kv.1 ≠ "")
    (hnodup : (st.map Prod.fst).Nodup)
    (hexact : ∀ kv ∈ st, snapshotExact kv.2 = true) (k : String) :
    storeLookup (restoreData (st.map (fun kv => (kv.1, encodeValue kv.2))) acc) k
      = (match storeLookup st k with
         | some v => some v
         | none => storeLookup acc k) := by
  induction st generalizing acc with
  | nil => rfl
  | cons kv rest ih =>
    have hkv : kv.1 ≠ "" := hkeys kv (by simp)
    have hkeys' : ∀ kv2 ∈ rest, kv2.1 ≠ "" := fun kv2 hm => hkeys kv2 (by simp [hm])
    have hexact' : ∀ kv2 ∈ rest, snapshotExact kv2.2 = true :=
      fun kv2 hm => hexact kv2 (by simp [hm])
    rw [List.map_cons, List.nodup_cons] at hnodup
    have hnd := hnodup
    have hstep : restoreData ((kv :: rest).map (fun kv => (kv.1, encodeValue kv.2))) acc
        = restoreData (rest.map (fun kv => (kv.1, encodeValue kv.2)))
            (setValueSilent acc kv.1 kv.2) := by
      simp [restoreData, List.foldl_cons, decode_encode kv.2 (hexact kv (by simp))]
    rw [hstep]
    by_cases hk : kv.1 = k
    · have hnotin : ¬ k ∈ (rest.map (fun kv => (kv.1, encodeValue kv.2))).map Prod.fst := by
        simp only [List.map_map]
        subst hk
        simpa using hnd.1
      rw [restoreData_lookup_frame _ _ hnotin]
      subst hk
      rw [setValueSilent_lookup_self acc kv.2 hkv]
      simp [storeLookup]
    · rw [ih _ hkeys' hnd.2 hexact']
      rw [setValueSilent_lookup_other acc kv.2 hk]
      simp [storeLookup, hk]

/-- Claim C8 (amended): for a store all of whose values lie in the
JSON-native kinds (string, number, boolean, string-list), restoring a
snapshot reproduces the identical key set with equal values and preserved
type tags (a list value decodes back to a list, never to a scalar string),
whatever the prior contents.  Outside that domain the round trip is not
exact: a stored `QDateTime` comes back as its ISO string. -/
theorem C8_snapshot_restore_roundtrip (st st0 : Store) (ts : String)
    (hkeys : ∀ kv ∈ st, kv.1 ≠ "")
    (hnodup : (st.map Prod.fst).Nodup)
    (hexact : ∀ kv ∈ st, snapshotExact kv.2 = true) :
    (restoreFromSnapshot (createSnapshot ts st) st0).2 = true ∧
    (∀ k, storeLookup (restoreFromSnapshot (createSnapshot ts st) st0).1 k
        = storeLookup st k) ∧
    (∀ v, snapshotExact v = true → decodeSnapshotValue (encodeValue v) = some v) ∧
    (∀ iso, decodeSnapshotValue (encodeValue (.vdatetime iso)) = some (.vstr iso)) := by
  have hdata : (createSnapshot ts st).getField "data"
      = some (.jobj (st.map (fun kv => (kv.1, encodeValue kv.2)))) := rfl
  have hrestore : restoreFromSnapshot (createSnapshot ts st) st0
      = (restoreData (st.map (fun kv => (kv.1, encodeValue kv.2))) [], true) := by
    unfold restoreFromSnapshot
    rw [hdata]
  refine ⟨by rw [hrestore], ?_, decode_encode, decode_encode_datetime⟩
  intro k
  rw [hrestore]
  have h := restoreData_encoded_lookup st [] hkeys hnodup hexact k
  rw [h]
  cases storeLookup st k <;> rfl

/-! ## C6: wildcard pattern matching -/

theorem globMatch_nil (cs : List Char) : globMatch [] cs = cs.isEmpty := by
  rw [globMatch]

theorem globMatch_cons (p : Char) (ps cs : List Char) :
    globMatch (p :: ps) cs =
      if p = '*' then
        globMatch ps cs ||
          (match cs with
           | [] => false
           | c :: cs' => c != '\n' && globMatch (p :: ps) cs')
      else
        match cs with
        | [] => false
        | c :: cs' => p = c && globMatch ps cs' := by
  rw [globMatch.eq_def]

/-- A star-free pattern matches exactly the equal key. -/
theorem globMatch_star_free {ps : List Char} (h : ¬ '*' ∈ ps) (cs : List Char) :
    globMatch ps cs = true ↔ ps = cs := by
  induction ps generalizing cs with
  | nil =>
    rw [globMatch_nil]
    cases cs <;> simp
  | cons p ps ih =>
    have hp : p ≠ '*' := fun he => h (by simp [he])
    have hps : ¬ '*' ∈ ps := fun hm => h (by simp [hm])
    rw [globMatch_cons, if_neg hp]
    cases cs with
    | nil => simp
    | cons c cs' =>
      simp [Bool.and_eq_true, decide_eq_true_eq, ih hps, List.cons.injEq]

/-- A leading `*` matches by skipping any number of key characters, none of
which may be the newline (`.` does not match `'\n'`). -/
theorem globMatch_star_cons (ps cs : List Char) :
    globMatch ('*' :: ps) cs = true ↔
      ∃ n, ¬ '\n' ∈ cs.take n ∧ globMatch ps (cs.drop n) = true := by
  induction cs with
  | nil =>
    rw [globMatch_cons, if_pos rfl]
    simp only [Bool.or_false]
    constructor
    · intro h
      exact ⟨0, by simp, h⟩
    · rintro ⟨n, hnl, hn⟩
      simpa [List.drop_nil] using hn
  | cons c cs' ih =>
    rw [globMatch_cons, if_pos rfl]
    simp only [Bool.or_eq_true, Bool.and_eq_true, bne_iff_ne]
    constructor
    · rintro (h | ⟨hc, h⟩)
      · exact ⟨0, by simp, h⟩
      · obtain ⟨n, hnl, hn⟩ := ih.mp h
        refine ⟨n + 1, ?_, by simpa using hn⟩
        rw [List.take_succ_cons]
        intro hmem
        rcases List.mem_cons.mp hmem with he | he
        · exact hc he.symm
        · exact hnl he
    · rintro ⟨n, hnl, hn⟩
      cases n with
      | zero => exact Or.inl (by simpa using hn)
      | succ n =>
        rw [List.take_succ_cons] at hnl
        refine Or.inr ⟨?_, ih.mpr ⟨n, ?_, by simpa using hn⟩⟩
        · intro he
          exact hnl (by simp [he])
        · intro hmem
          exact hnl (by simp [hmem])

/-- A star-free pattern part at the front consumes exactly itself. -/
theorem globMatch_append {pre : List Char} (h : ¬ '*' ∈ pre) (ps cs : List Char) :
    globMatch (pre ++ ps) cs = true ↔
      ∃ cs', cs = pre ++ cs' ∧ globMatch ps cs' = true := by
  induction pre generalizing cs with
  | nil => simp
  | cons p pre' ih =>
    have hp : p ≠ '*' := fun he => h (by simp [he])
    have hpre : ¬ '*' ∈ pre' := fun hm => h (by simp [hm])
    rw [List.cons_append, globMatch_cons, if_neg hp]
    cases cs with
    | nil => simp
    | cons c cs'' =>
      simp only [Bool.and_eq_true, decide_eq_true_eq]
      rw [ih hpre]
      constructor
      · rintro ⟨hpc, cs3, hcs, hglob⟩
        exact ⟨cs3, by simp [hpc, hcs], hglob⟩
      · rintro ⟨cs3, hcs, hglob⟩
        rw [List.cons_append] at hcs
        injection hcs with h1 h2
        exact ⟨h1.symm, cs3, h2, hglob⟩

/-- Semantics of the body of a single-star pattern: the key must start with
the literal part before the `*`, end with the literal part after it, and the
`*` absorbs any newline-free run of characters in between. -/
theorem globMatch_one_star {pre suf : List Char} (hpre : ¬ '*' ∈ pre)
    (hsuf : ¬ '*' ∈ suf) (key : List Char) :
    globMatch (pre ++ '*' :: suf) key = true ↔
      ∃ mid, ¬ '\n' ∈ mid ∧ key = pre ++ (mid ++ suf) := by
  rw [globMatch_append hpre]
  constructor
  · rintro ⟨cs', hkey, hglob⟩
    rw [globMatch_star_cons] at hglob
    obtain ⟨n, hnl, hn⟩ := hglob
    rw [globMatch_star_free hsuf] at hn
    refine ⟨cs'.take n, hnl, ?_⟩
    rw [hkey, hn, List.take_append_drop]
  · rintro ⟨mid, hnl, hkey⟩
    refine ⟨mid ++ suf, hkey, ?_⟩
    rw [globMatch_star_cons]
    refine ⟨mid.length, ?_, ?_⟩
    · rw [List.take_left]
      exact hnl
    · rw [List.drop_left, globMatch_star_free hsuf]

theorem eq_dropLast_concat {l : List Char} (h : l.getLast? = some '\n') :
    l = l.dropLast ++ ['\n'] := by
  cases hl : l with
  | nil =>
    rw [hl] at h
    simp at h
  | cons x xs =>
    rw [← hl]
    have hne : l ≠ [] := by
      rw [hl]
      simp
    have hg := List.getLast?_eq_getLast l hne
    rw [hg] at h
    have := Option.some.inj h
    conv_lhs => rw [← List.dropLast_append_getLast hne]
    rw [this]

/-- Acceptance of a compiled single-star pattern: the key decomposes as
`pre ++ mid ++ suf` with a newline-free `mid`, possibly followed by one
trailing newline that the `$` anchor tolerates. -/
theorem reAccepts_one_star {pre suf : List Char} (hpre : ¬ '*' ∈ pre)
    (hsuf : ¬ '*' ∈ suf) (key : List Char) :
    reAccepts (pre ++ '*' :: suf) key = true ↔
      ∃ mid, ¬ '\n' ∈ mid ∧
        (key = pre ++ (mid ++ suf) ∨ key = (pre ++ (mid ++ suf)) ++ ['\n']) := by
  unfold reAccepts
  rw [Bool.or_eq_true, Bool.and_eq_true, decide_eq_true_eq,
    globMatch_one_star hpre hsuf, globMatch_one_star hpre hsuf]
  constructor
  · rintro (⟨mid, hnl, hk⟩ | ⟨hlast, mid, hnl, hk⟩)
    · exact ⟨mid, hnl, Or.inl hk⟩
    · refine ⟨mid, hnl, Or.inr ?_⟩
      rw [← hk]
      exact eq_dropLast_concat hlast
  · rintro ⟨mid, hnl, hk | hk⟩
    · exact Or.inl ⟨mid, hnl, hk⟩
    · refine Or.inr ⟨?_, mid, hnl, ?_⟩
      · rw [hk, List.getLast?_concat]
      · rw [hk, List.dropLast_concat]

theorem matchesPattern_proc_re (key : String) :
    matchesPattern "proc.*" key = reAccepts "proc.*".toList key.toList := by
  unfold matchesPattern
  rw [if_neg (by decide), if_neg (by decide)]

theorem proc_pattern_split :
    "proc.*".toList = "proc.".toList ++ '*' :: ([] : List Char) := by decide

theorem matches_proc_pos :
    matchesPattern "proc.*" "proc.workerA.status" = true := by
  rw [matchesPattern_proc_re, proc_pattern_split,
    reAccepts_one_star (by decide) (by decide)]
  exact ⟨"workerA.status".toList, by decide, Or.inl (by decide)⟩

theorem matches_proc_neg :
    matchesPattern "proc.*" "other.key" = false := by
  rw [matchesPattern_proc_re, proc_pattern_split, Bool.eq_false_iff]
  intro h
  rw [reAccepts_one_star (by decide) (by decide)] at h
  obtain ⟨mid, hnl, hk | hk⟩ := h
  · have h2 : some 'o' = some 'p' := congrArg List.head? hk
    exact absurd h2 (by decide)
  · have h2 : some 'o' = some 'p' := congrArg List.head? hk
    exact absurd h2 (by decide)

/-- Counterexample to claim C6 as stated: the key `"proc.a\nb"` decomposes as
the prefix `"proc."` followed by a run of characters, so under "`*` stands
for any run of characters" the pattern `"proc.*"` would match it — but the
code compiles `*` to `.*` in a `QRegularExpression` whose `.` does not match
the newline, so `matchesPattern` rejects the key. -/
theorem C6_counterexample :
    "proc.a\nb".toList = "proc.".toList ++ ("a\nb".toList ++ ([] : List Char)) ∧
    matchesPattern "proc.*" "proc.a\nb" = false := by
  refine ⟨by decide, ?_⟩
  rw [matchesPattern_proc_re, proc_pattern_split, Bool.eq_false_iff]
  intro h
  rw [reAccepts_one_star (by decide) (by decide)] at h
  obtain ⟨mid, hnl, hk | hk⟩ := h
  · have h0 : "proc.".toList ++ ("a\nb".toList ++ ([] : List Char))
        = "proc.".toList ++ (mid ++ []) := by
      rw [← hk]
      decide
    have hmid := List.append_cancel_left h0
    rw [List.append_nil, List.append_nil] at hmid
    rw [← hmid] at hnl
    exact hnl (by decide)
  · have h2 := congrArg List.getLast? hk
    rw [List.getLast?_concat] at h2
    exact absurd h2 (by decide)

/-- Claim C6 (amended): `"*"` matches every key; a star-free pattern matches
exactly the equal key; a pattern with `*` matches as an anchored glob in
which `*` stands for any run of *non-newline* characters (the compiled
`QRegularExpression`'s `.` excludes `'\n'`) and whose `$` anchor tolerates
one trailing newline; and a subscription on `"proc.*"` is notified for
`"proc.workerA.status"` but not for `"other.key"`. -/
theorem C6_pattern_matching :
    (∀ key, matchesPattern "*" key = true) ∧
    (∀ pattern key, ¬ qcontains pattern '*' = true →
        (matchesPattern pattern key = true ↔ pattern = key)) ∧
    (∀ pre suf key, ¬ '*' ∈ pre → ¬ '*' ∈ suf →
        (reAccepts (pre ++ '*' :: suf) key = true ↔
          ∃ mid, ¬ '\n' ∈ mid ∧
            (key = pre ++ (mid ++ suf) ∨ key = (pre ++ (mid ++ suf)) ++ ['\n']))) ∧
    matchesPattern "proc.*" "proc.workerA.status" = true ∧
    matchesPattern "proc.*" "other.key" = false ∧
    notifySubscribersOf [("proc.*", ["subA"])] "proc.workerA.status" = ["subA"] ∧
    notifySubscribersOf [("proc.*", ["subA"])] "other.key" = [] := by
  refine ⟨?_, ?_, ?_, matches_proc_pos, matches_proc_neg, ?_, ?_⟩
  · intro key
    rfl
  · intro pattern key h
    have hne : pattern ≠ "*" := by
      intro he
      subst he
      exact h rfl
    unfold matchesPattern
    rw [if_neg hne, if_pos h]
    exact beq_iff_eq
  · intro pre suf key hpre hsuf
    exact reAccepts_one_star hpre hsuf key
  · simp [notifySubscribersOf, List.filter, matches_proc_pos]
  · simp [notifySubscribersOf, List.filter, matches_proc_neg]

/-- Witness for C6: the exact-match branch instantiated at a concrete
star-free pattern. -/
theorem C6_witness :
    matchesPattern "other.key" "other.key" = true ∧
    matchesPattern "proc.*" "proc.workerA.status" = true :=
  ⟨(C6_pattern_matching.2.1 "other.key" "other.key" (by decide)).mpr rfl,
   C6_pattern_matching.2.2.2.1⟩

/-! ## C5: id mapping and disconnect cleanup -/

/-- A subscription command from logical peer `workerA` on connection
`conn-1`. -/
def c5SubscribeMsg : IpcMessage :=
  { type := .kCommand
  , topic := "subscribe_topic"
  , msg_id := "m-1"
  , timestamp := 0
  , sender_id := "workerA"
  , receiver_id := ""
  , body := [("topic", .jstr "status")] }

/-- The failing trace for claim C5: accept a connection, receive a topic
subscription from it, then let it disconnect. -/
def c5Trace : List ChanEvent :=
  [.accept "conn-1", .recv "conn-1" c5SubscribeMsg, .disconnect "conn-1"]

/-- The channel state after the C5 trace. -/
def c5Final : ChannelState := chanRun initialChannelState c5Trace

/-- A heartbeat declaring logical id `idA` on connection `conn-1`. -/
def c5HelloA : IpcMessage :=
  { type := .kHeartbeat, topic := "", msg_id := "m-2", timestamp := 1
  , sender_id := "idA", receiver_id := "", body := [] }

/-- A heartbeat declaring a second logical id `idB` on the same connection. -/
def c5HelloB : IpcMessage :=
  { type := .kHeartbeat, topic := "", msg_id := "m-3", timestamp := 2
  , sender_id := "idB", receiver_id := "", body := [] }

/-- One connection declaring two different sender ids. -/
def c5Trace2 : List ChanEvent :=
  [.accept "conn-1", .recv "conn-1" c5HelloA, .recv "conn-1" c5HelloB]

/-- The channel state after the second C5 trace. -/
def c5Final2 : ChannelState := chanRun initialChannelState c5Trace2

/-- Claim C5: the logical-to-internal mapping is always a 1:1 bijection and a
disconnect removes the mapping together with every topic membership of the
connection.  Refuted on the code, at two points.  First,
`handleSubscriptionMessage` stores the *logical* sender id in the topic list
while `RemoveClient` removes the *internal* connection id from it, so after
the subscribe-then-disconnect trace the topic list still holds `workerA`
although no client remains.  Second, a connection that declares two sender
ids gets two logical-to-internal entries pointing at the same internal id,
so the mapping is not injective. -/
theorem C5_mapping_and_cleanup_broken :
    c5Final.clients = [] ∧
    c5Final.logicalToInternal = [] ∧
    c5Final.internalToLogical = [] ∧
    assocLookup c5Final.topicSubs "status" = some ["workerA"] ∧
    c5Final2.logicalToInternal = [("idA", "conn-1"), ("idB", "conn-1")] ∧
    c5Final2.internalToLogical = [("conn-1", "idB")] :=
  ⟨rfl, rfl, rfl, rfl, rfl, rfl⟩

/-! ## C3: wire framing -/

/-- The length-prefixed `QDataStream` block of a broadcast can never equal the
newline-terminated frame of `sendMessage`: their lengths always differ. -/
theorem broadcastBlock_ne_sendFrame (m : IpcMessage) :
    broadcastBlock m ≠ serializeMessage m ++ [10] := by
  intro h
  have hl := congrArg List.length h
  simp only [broadcastBlock, u32be, List.length_append, List.length_cons,
    List.length_nil] at hl
  omega

/-- Claim C3 (amended): the point-to-point `sendMessage` path frames a message
as its compact JSON serialization followed by one newline, but
`broadcastMessage`/`publishToTopic` instead write the `QDataStream` encoding
(4-byte big-endian length prefix, no newline); the receive path buffers
bytes per connection, dispatches exactly the complete newline-terminated
frames (skipping empty ones) and keeps the partial tail, tolerating frames
split across reads. -/
theorem C3_wire_framing (st : ChannelState) (m : IpcMessage) (w : String → Bool) :
    (∀ i bytes, (sendMessage st m w).2 = some (i, bytes) →
        bytes = serializeMessage m ++ [10]) ∧
    (∀ i bytes, (i, bytes) ∈ broadcastWrites st m →
        bytes = u32be (serializeMessage m).length ++ serializeMessage m ∧
        bytes ≠ serializeMessage m ++ [10]) ∧
    (∀ buf, joinFrames (processBuffer buf).1 (processBuffer buf).2 = buf ∧
        ¬ 10 ∈ (processBuffer buf).2 ∧
        dispatchedFrames buf = (processBuffer buf).1.filter (fun f => f ≠ [])) ∧
    (∀ buf1 buf2, processBuffer (buf1 ++ buf2) =
        ((processBuffer buf1).1 ++ (processBuffer ((processBuffer buf1).2 ++ buf2)).1,
         (processBuffer ((processBuffer buf1).2 ++ buf2)).2)) := by
  refine ⟨?_, ?_,
    fun buf => ⟨processBuffer_join buf, processBuffer_rest_no_newline buf, rfl⟩,
    processBuffer_incremental⟩
  · intro i bytes h
    unfold sendMessage at h
    split at h
    · simp at h
    · split at h
      · simp at h
      · split at h
        · have hb : sendFrame m = bytes := by
            have h2 := Option.some.inj h
            exact congrArg Prod.snd h2
          rw [← hb]
          rfl
        · simp at h
  · intro i bytes h
    unfold broadcastWrites at h
    by_cases he : st.clients.isEmpty
    · rw [if_pos he] at h
      simp at h
    · rw [if_neg he, List.mem_filterMap] at h
      obtain ⟨client, hmem, hcl⟩ := h
      cases hcc : client.2 with
      | false =>
        rw [hcc] at hcl
        simp at hcl
      | true =>
        rw [hcc] at hcl
        have hb : client.1 = i ∧ broadcastBlock m = bytes := by simpa using hcl
        rw [← hb.2]
        exact ⟨rfl, broadcastBlock_ne_sendFrame m⟩

/-- A message and a one-client state on which the broadcast framing is
observed. -/
def c3Message : IpcMessage :=
  { type := .kStatusReport, topic := "", msg_id := "m-42", timestamp := 5
  , sender_id := "master", receiver_id := "", body := [] }

/-- A channel state with a single connected client. -/
def c3BroadcastState : ChannelState :=
  { clients := [("conn-1", true)]
  , logicalToInternal := [], internalToLogical := [], topicSubs := [] }

/-- Counterexample to claim C3 as stated: the block `broadcastMessage`
writes to its one connected client is not the compact JSON serialization
followed by a newline. -/
theorem C3_counterexample :
    broadcastWrites c3BroadcastState c3Message
      = [("conn-1", broadcastBlock c3Message)] ∧
    broadcastBlock c3Message ≠ serializeMessage c3Message ++ [10] :=
  ⟨rfl, broadcastBlock_ne_sendFrame c3Message⟩

/-- A state in which logical peer `workerB` is mapped and connected. -/
def c3SendState : ChannelState :=
  { clients := [("conn-2", true)]
  , logicalToInternal := [("workerB", "conn-2")]
  , internalToLogical := [("conn-2", "workerB")]
  , topicSubs := [] }

/-- A point-to-point message addressed to `workerB`. -/
def c3SendMsg : IpcMessage :=
  { type := .kCommand, topic := "run", msg_id := "m-7", timestamp := 9
  , sender_id := "master", receiver_id := "workerB", body := [] }

/-- Witness for C3: on a concrete state the resolved `sendMessage` write is
the compact JSON bytes followed by the newline delimiter. -/
theorem C3_witness :
    (sendMessage c3SendState c3SendMsg (fun _ => true)).2
      = some ("conn-2", serializeMessage c3SendMsg ++ [10]) := by
  have h0 : (sendMessage c3SendState c3SendMsg (fun _ => true)).2
      = some ("conn-2", sendFrame c3SendMsg) := rfl
  have h := (C3_wire_framing c3SendState c3SendMsg (fun _ => true)).1 "conn-2"
    (sendFrame c3SendMsg) h0
  rw [h0, h]

/-- The failing input for claim C8 as originally stated: a store holding a
`QDateTime` value, as `MainController` writes with
`setValue("system.shutdown_time", QDateTime::currentDateTime())`. -/
def c8DateTimeStore : Store :=
  [("system.shutdown_time", .vdatetime "2026-01-01T00:00:00.000")]

/-- Counterexample to claim C8 as stated: on a store holding a `QDateTime`
value the snapshot round trip is not exact — the restored entry is the ISO
string as a plain string variant, not the original datetime value. -/
theorem C8_counterexample :
    (restoreFromSnapshot (createSnapshot "ts" c8DateTimeStore) []).2 = true ∧
    storeLookup c8DateTimeStore "system.shutdown_time"
      = some (.vdatetime "2026-01-01T00:00:00.000") ∧
    storeLookup (restoreFromSnapshot (createSnapshot "ts" c8DateTimeStore) []).1
        "system.shutdown_time" = some (.vstr "2026-01-01T00:00:00.000") ∧
    DSValue.vstr "2026-01-01T00:00:00.000"
      ≠ DSValue.vdatetime "2026-01-01T00:00:00.000" := by
  refine ⟨rfl, rfl, rfl, by decide⟩

/-- A concrete store for the C8 witness: a scalar string, a number and a
string-list value. -/
def c8Store : Store :=
  [("proc.workerA.status", .vstr "running"),
   ("system_metrics.cpu_usage", .vnum 42),
   ("current_ip_table", .vlist ["10.0.0.1", "10.0.0.2"])]

/-- Witness for C8 at a concrete store: the restore succeeds and the
list-typed entry comes back as the same list. -/
theorem C8_witness :
    (restoreFromSnapshot (createSnapshot "2026-01-01T00:00:00" c8Store) []).2 = true ∧
    storeLookup (restoreFromSnapshot (createSnapshot "2026-01-01T00:00:00" c8Store) []).1
        "current_ip_table" = some (.vlist ["10.0.0.1", "10.0.0.2"]) := by
  have h := C8_snapshot_restore_roundtrip c8Store [] "2026-01-01T00:00:00"
    (by decide) (by decide) (by decide)
  exact ⟨h.1, (h.2.1 "current_ip_table").trans (by decide)⟩

end Master
